/-
  Verification of the uipath-document-review-action frontend.

  Shallow embedding of the parts of the repository that the checked
  properties concern:
    - src/types/action-schema.ts   (getInputType, VB data-type strings)
    - src/components/action/ActionFormField.tsx (widget selection)
    - src/hooks/useActionContext.ts (host handshake, form-state hook)
    - src/hooks/useBucketFile.ts   (bucket-file fetch hook)
    - src/pages/ActionPage.tsx     (effects: document/entity fetch, URL cleanup)
    - src/lib/formatters.ts        (formatCellValue)
    - src/components/action/PDFViewer.tsx (page-navigation state)

  JavaScript runtime values are embedded as the inductive type `Value`;
  JS objects are association lists with insertion order; JS numbers are
  modelled as `Int` (none of the checked code paths depends on
  floating-point behaviour).  Locale- and clock-dependent pieces
  (`Date.prototype.toLocaleDateString`, `new Date(s)`) delegate to the
  browser runtime in the source; they are modelled by a display payload on
  dates and by an explicit `localeDate` function parameter on strings.
-/
import Mathlib

namespace DocReview

/-- Embedded JavaScript runtime value (the `unknown` of the TS sources).
`vDate d` is a JS `Date` object whose `toLocaleDateString()` is `d`. -/
inductive Value where
  | vNull
  | vUndefined
  | vBool (b : Bool)
  | vNum (n : Int)
  | vStr (s : String)
  | vArr (elems : List Value)
  | vObj (fields : List (String × Value))
  | vDate (localeString : String)

/-- JavaScript truthiness of a value (`if (x)`), as in the guards of the
effects in src/pages/ActionPage.tsx and src/hooks/useActionContext.ts. -/
def truthy : Value → Bool
  | .vNull => false
  | .vUndefined => false
  | .vBool b => b
  | .vNum n => n != 0
  | .vStr s => s != ""
  | .vArr _ => true
  | .vObj _ => true
  | .vDate _ => true

/-- The flat key/value form-data bag (`ActionFormData = Record<string, unknown>`),
as an insertion-ordered association list with unique keys in practice. -/
def FormData := List (String × Value)

instance : Inhabited FormData := ⟨([] : List (String × Value))⟩

/-- Property read `obj[k]`: first binding of `k`, if any. -/
def lookupField : List (String × Value) → String → Option Value
  | [], _ => none
  | (k, v) :: rest, key => if k = key then some v else lookupField rest key

/-- Property read `obj.k` with JS semantics: a missing key reads as `undefined`. -/
def getField (fd : FormData) (key : String) : Value :=
  (lookupField fd key).getD .vUndefined

/-- Object spread update `{ ...prev, [k]: v }`: the existing binding of `k`
is overwritten in place, a new key is appended at the end. -/
def setField : FormData → String → Value → FormData
  | [], key, v => [(key, v)]
  | (k, w) :: rest, key, v =>
      if k = key then (k, v) :: rest else (k, w) :: setField rest key v

/-- Object spread merge `{ ...prev, ...data }`, field by field of `data`. -/
def mergeFields (fd : FormData) (data : List (String × Value)) : FormData :=
  data.foldl (fun acc kv => setField acc kv.1 kv.2) fd

/-! ## src/types/action-schema.ts : VB data types and getInputType -/

/-- `VBDataType.String` -/
def vbString : String := "System.String"
/-- `VBDataType.Int32` -/
def vbInt32 : String := "System.Int32"
/-- `VBDataType.Boolean` -/
def vbBoolean : String := "System.Boolean"
/-- `VBDataType.Int16` -/
def vbInt16 : String := "System.Int16"
/-- `VBDataType.Int64` -/
def vbInt64 : String := "System.Int64"
/-- `VBDataType.UInt16` -/
def vbUInt16 : String := "System.UInt16"
/-- `VBDataType.UInt32` -/
def vbUInt32 : String := "System.UInt32"
/-- `VBDataType.UInt64` -/
def vbUInt64 : String := "System.UInt64"
/-- `VBDataType.Double` -/
def vbDouble : String := "System.Double"
/-- `VBDataType.Single` -/
def vbSingle : String := "System.Single"
/-- `VBDataType.Decimal` -/
def vbDecimal : String := "System.Decimal"
/-- `VBDataType.DateOnly` -/
def vbDateOnly : String := "System.DateOnly"
/-- `VBDataType.Guid` -/
def vbGuid : String := "System.Guid"
/-- `VBDataType.Object` -/
def vbObject : String := "System.Object"
/-- `VBDataType.DataTable` -/
def vbDataTable : String := "System.Data.DataTable"
/-- `VBDataType.IResource` -/
def vbIResource : String := "UiPath.Platform.ResourceHandling.IResource"

/-- `getInputType` from src/types/action-schema.ts: converts a VB data type
(an enum string, or any other string) to an HTML input type.  The source's
`switch` falls through the listed cases to the two `'number'` returns. -/
def getInputType (vbType : String) : String :=
  if vbType = vbInt16 ∨ vbType = vbInt32 ∨ vbType = vbInt64 ∨
     vbType = vbUInt16 ∨ vbType = vbUInt32 ∨ vbType = vbUInt64 then "number"
  else if vbType = vbDouble ∨ vbType = vbSingle ∨ vbType = vbDecimal then "number"
  else if vbType = vbBoolean then "checkbox"
  else if vbType = vbDateOnly then "date"
  else "text"

/-! ## src/components/action/ActionFormField.tsx : widget selection -/

/-- The input control rendered by `ActionFormField` for a field. -/
inductive Control where
  | checkbox
  | textarea
  | numberInput
  | dateInput
  | textInput
  deriving Repr, DecidableEq

/-- `name.toLowerCase().includes(sub)` -/
def includesLower (name sub : String) : Bool :=
  (name.toLower.splitOn sub).length != 1

/-- The `isLongText` test of `ActionFormField`: a `System.String` field whose
name marks it as long-form text (rendered as a multi-line textarea). -/
def isLongTextName (name : String) : Bool :=
  includesLower name "comment" || includesLower name "description" ||
  includesLower name "note" || includesLower name "reason" ||
  includesLower name "message"

/-- Which control `ActionFormField` renders, following the branch order of
the component: Boolean checkbox, then long-text textarea, then number
input, then date input, then the default text input. -/
def renderedControl (ty : String) (name : String) : Control :=
  if ty = vbBoolean then .checkbox
  else if ty = vbString ∧ isLongTextName name then .textarea
  else if getInputType ty = "number" then .numberInput
  else if ty = vbDateOnly then .dateInput
  else .textInput

/-- A control into which free text is typed (single- or multi-line). -/
def Control.isTextEntry : Control → Bool
  | .textarea => true
  | .textInput => true
  | _ => false

/-! ## src/hooks/useActionContext.ts : host handshake and form state -/

/-- `ActionCenterData` from src/types/action-schema.ts.  `data` is typed
non-optional but the handler truthiness-checks it (`if (data.data)`), so it
is embedded as an `Option` (a present record object is always truthy).
`theme`, `language` and the credential strings are truthiness-checked as
strings, so they are embedded as `String` with `""`/absence falsy. -/
structure ActionCenterData where
  taskId : Int
  title : String
  status : String
  isReadOnly : Bool
  data : Option FormData
  action : String
  organizationUnitId : Int
  organizationUnitFullyQualifiedName : String
  baseUrl : String
  orgName : String
  tenantName : String
  token : String
  language : String
  theme : String
  newToken : Option String
  newLanguage : Option String
  newTheme : Option String

/-- JS truthiness of an optional string (`if (data.newTheme)` on a
`string | undefined` field: absent and `""` are falsy). -/
def truthyOptStr : Option String → Bool
  | some s => s != ""
  | none => false

/-- `Theme.Light`, the initial theme of the hook. -/
def themeLight : String := "light"

/-- The state held by `useActionContext`: the five `useState` cells plus
the two refs (`initialDataRef`, `isInitializedRef`). -/
structure HookState where
  taskData : Option ActionCenterData
  formData : FormData
  theme : String
  language : String
  hasActionCenterData : Bool
  initialDataRef : FormData
  isInitializedRef : Bool

/-- The hook state on first render: `useState` initial values, with
`formData` and `initialDataRef` seeded from the caller's `initialData`
(`{}` when not supplied). -/
def initialHookState (initialData : FormData) : HookState :=
  { taskData := none
    formData := initialData
    theme := themeLight
    language := "en"
    hasActionCenterData := false
    initialDataRef := initialData
    isInitializedRef := false }

/-- The hook's derived `isReadOnly` result: `taskData?.isReadOnly ?? false`. -/
def isReadOnlyView (st : HookState) : Bool :=
  match st.taskData with
  | some t => t.isReadOnly
  | none => false

/-- `handleActionCenterMessage` from useActionContext.ts, acting on the hook
state.  The SDK side calls (`initializeSdk`, `updateToken`) are external
effects with no influence on the hook state and are not represented. -/
def handleActionCenterMessage (st : HookState) (d : ActionCenterData) : HookState :=
  let st := { st with taskData := some d, hasActionCenterData := true }
  let st :=
    if truthyOptStr d.newTheme then { st with theme := d.newTheme.getD "" }
    else if d.theme != "" then { st with theme := d.theme }
    else st
  let st :=
    if truthyOptStr d.newLanguage then { st with language := d.newLanguage.getD "" }
    else if d.language != "" then { st with language := d.language }
    else st
  match d.data with
  | some fd => { st with formData := fd, initialDataRef := fd }
  | none => st

/-- Hook state paired with a count of the observable SDK handshake calls
made by the mount effect (`getTaskDetailsFromActionCenter` registrations
and `initializeInActionCenter` ready signals). -/
structure HookWorld where
  state : HookState
  registrations : Nat
  readySignals : Nat

/-- The world on first render: initial hook state, no SDK calls yet. -/
def initialHookWorld (initialData : FormData) : HookWorld :=
  { state := initialHookState initialData, registrations := 0, readySignals := 0 }

/-- One entry of the mount effect of `useActionContext`: guarded by
`isInitializedRef`; on first entry it sets the ref, registers the host
message callback and sends the ready signal. -/
def effectEntry (w : HookWorld) : HookWorld :=
  if w.state.isInitializedRef then w
  else
    { state := { w.state with isInitializedRef := true }
      registrations := w.registrations + 1
      readySignals := w.readySignals + 1 }

/-- Delivery of a host message to the registered callback. -/
def deliverMessage (w : HookWorld) (d : ActionCenterData) : HookWorld :=
  { w with state := handleActionCenterMessage w.state d }

/-- `updateField` from useActionContext.ts: functional update of `formData`
via `{ ...prev, [fieldName]: value }` (the `dataChanged` notification to the
host is an external call that does not touch hook state). -/
def updateField (st : HookState) (fieldName : String) (value : Value) : HookState :=
  { st with formData := setField st.formData fieldName value }

/-- `updateFormData` from useActionContext.ts: `{ ...prev, ...data }`. -/
def updateFormData (st : HookState) (data : List (String × Value)) : HookState :=
  { st with formData := mergeFields st.formData data }

/-- `resetForm` from useActionContext.ts: `setFormData(initialDataRef.current)`. -/
def resetForm (st : HookState) : HookState :=
  { st with formData := st.initialDataRef }

/-- The state-changing operations of the hook, for reasoning about
interleavings of host messages and local edits. -/
inductive HookEvent where
  | hostMessage (d : ActionCenterData)
  | fieldUpdate (fieldName : String) (value : Value)
  | formUpdate (data : List (String × Value))
  | formReset

/-- Apply one hook operation to the hook state. -/
def stepHook (st : HookState) : HookEvent → HookState
  | .hostMessage d => handleActionCenterMessage st d
  | .fieldUpdate f v => updateField st f v
  | .formUpdate data => updateFormData st data
  | .formReset => resetForm st

/-- One step of scanning a hook event for a data-carrying host message. -/
def lastHostDataStep (acc : Option FormData) : HookEvent → Option FormData
  | .hostMessage d =>
      match d.data with
      | some fd => some fd
      | none => acc
  | _ => acc

/-- The `data.data` payload of the most recent data-carrying host message
in a list of events, if any: this is what `initialDataRef` tracks. -/
def lastHostData (events : List HookEvent) : Option FormData :=
  events.foldl lastHostDataStep none

/-! ## src/hooks/useBucketFile.ts : storage-bucket file access -/

/-- `BucketFileInfo` from useBucketFile.ts. -/
structure BucketFileInfo where
  uri : String
  httpMethod : String
  requiresAuth : Bool
  headers : List (String × String)

/-- A fetched file body (`Blob`): MIME type plus abstract content. -/
structure Blob where
  type : String
  content : String

/-- The response of `fetch(uri, ...)` when the request itself resolves. -/
structure FetchResponse where
  ok : Bool
  statusText : String
  blob : Blob

/-- The four `useState` cells of `useBucketFile`. -/
structure BucketState where
  fileInfo : Option BucketFileInfo
  fileContent : Option Blob
  loading : Bool
  error : Option String

/-- `getReadUri` from useBucketFile.ts.  The SDK call
`uipath.buckets.getReadUri(...)` either resolves with a response or rejects;
a rejection is embedded as `Except.error` carrying the error message
(`err.message`, or the literal fallback for a non-`Error` throw).  Returns
the updated state and the value returned to the caller; the `finally`
clause clears `loading` on both paths and nothing is re-thrown. -/
def getReadUri (st : BucketState) (sdkResult : Except String BucketFileInfo) :
    BucketState × Option BucketFileInfo :=
  let st := { st with loading := true, error := none }
  match sdkResult with
  | .ok response =>
      let info : BucketFileInfo :=
        { uri := response.uri
          httpMethod := response.httpMethod
          requiresAuth := response.requiresAuth
          headers := response.headers }
      ({ st with fileInfo := some info, loading := false }, some info)
  | .error err =>
      ({ st with error := some err, fileInfo := none, loading := false }, none)

/-- `fetchFileContent` from useBucketFile.ts: gets the read URI via the SDK,
then fetches the content.  `fetchResult` is the outcome of
`fetch(uriResponse.uri, ...)`: a rejection (`Except.error`, message as for
`getReadUri`) or a resolved response whose `ok` flag gates the explicit
`throw new Error('Failed to fetch file: ' + statusText)`; every throw is
caught by the single `catch`, and `finally` clears `loading`. -/
def fetchFileContent (st : BucketState) (sdkResult : Except String BucketFileInfo)
    (fetchResult : Except String FetchResponse) : BucketState × Option Blob :=
  let st := { st with loading := true, error := none }
  match sdkResult with
  | .error err =>
      ({ st with error := some err, fileContent := none, loading := false }, none)
  | .ok uriResponse =>
      let info : BucketFileInfo :=
        { uri := uriResponse.uri
          httpMethod := uriResponse.httpMethod
          requiresAuth := uriResponse.requiresAuth
          headers := uriResponse.headers }
      let st := { st with fileInfo := some info }
      match fetchResult with
      | .error err =>
          ({ st with error := some err, fileContent := none, loading := false }, none)
      | .ok resp =>
          if !resp.ok then
            let msg := "Failed to fetch file: " ++ resp.statusText
            ({ st with error := some msg, fileContent := none, loading := false }, none)
          else
            ({ st with fileContent := some resp.blob, loading := false }, some resp.blob)

/-! ## src/pages/ActionPage.tsx : gated fetch effects and URL cleanup -/

/-- A dependent-service call issued by the effects of `ActionPage`. -/
inductive ServiceCall where
  | fetchFile (bucketId folderId : Value) (path : Value) (expiryInMinutes : Int)
  | entityFetchByName (entityName : Value) (pageSize expansionLevel : Int)

/-- The document-fetch effect of `ActionPage` (the `fetchFileContent` calls
it issues).  Guard: `if (!hasActionCenterData || !formData.bucketId ||
!formData.folderId) return;`, then one fetch per truthy `path1..path3`. -/
def documentFetchCalls (hasActionCenterData : Bool) (formData : FormData) :
    List ServiceCall :=
  if !hasActionCenterData || !truthy (getField formData "bucketId") ||
     !truthy (getField formData "folderId") then []
  else
    (if truthy (getField formData "path1") then
       [ServiceCall.fetchFile (getField formData "bucketId")
          (getField formData "folderId") (getField formData "path1") 60]
     else []) ++
    (if truthy (getField formData "path2") then
       [ServiceCall.fetchFile (getField formData "bucketId")
          (getField formData "folderId") (getField formData "path2") 60]
     else []) ++
    (if truthy (getField formData "path3") then
       [ServiceCall.fetchFile (getField formData "bucketId")
          (getField formData "folderId") (getField formData "path3") 60]
     else [])

/-- The entity-records effect of `ActionPage` (the `fetchByName` call it
issues).  Guard: `if (!hasActionCenterData || !formData.entityName) return;`. -/
def entityFetchCalls (hasActionCenterData : Bool) (formData : FormData) :
    List ServiceCall :=
  if !hasActionCenterData || !truthy (getField formData "entityName") then []
  else [ServiceCall.entityFetchByName (getField formData "entityName") 50 1]

/-- Per-document viewer state of `ActionPage` (`DocumentInfo`). -/
structure DocumentInfo where
  url : Option String
  contentType : String
  loading : Bool
  error : Option String

/-- An action performed by the cleanup effect of `ActionPage`. -/
inductive CleanupAction where
  | revokeObjectURL (url : String)
  deriving Repr, DecidableEq

/-- The cleanup function of the URL-cleanup effect of `ActionPage`:
`if (docN.url) URL.revokeObjectURL(docN.url)` for each of the three
document slots, and nothing else. -/
def cleanupEffect (doc1 doc2 doc3 : DocumentInfo) : List CleanupAction :=
  (match doc1.url with
   | some u => [CleanupAction.revokeObjectURL u]
   | none => []) ++
  (match doc2.url with
   | some u => [CleanupAction.revokeObjectURL u]
   | none => []) ++
  (match doc3.url with
   | some u => [CleanupAction.revokeObjectURL u]
   | none => [])

/-! ## src/components/action/PDFViewer.tsx : page navigation -/

/-- The page-navigation state of `PDFViewer` (`numPages`, `pageNumber`,
`loading`, `error`).  Numbers are JS integers, embedded as `Int`. -/
structure PdfState where
  numPages : Int
  pageNumber : Int
  loading : Bool
  error : Option String

/-- `PDFViewer` initial state: `numPages = 0`, `pageNumber = 1`,
`loading = true`, `error = null`. -/
def pdfInitial : PdfState :=
  { numPages := 0, pageNumber := 1, loading := true, error := none }

/-- The events that change the `PDFViewer` navigation state. -/
inductive PdfEvent where
  | loadSuccess (numPages : Int)
  | loadError (message : String)
  | prevClick
  | nextClick

/-- State update for each `PDFViewer` event: `onLoadSuccess` stores the
page count and resets to page 1; `goToPrevPage` sets
`Math.max(1, prev - 1)`; `goToNextPage` sets `Math.min(numPages, prev + 1)`. -/
def pdfStep (st : PdfState) : PdfEvent → PdfState
  | .loadSuccess n =>
      { st with numPages := n, pageNumber := 1, loading := false, error := none }
  | .loadError m => { st with loading := false, error := some m }
  | .prevClick => { st with pageNumber := max 1 (st.pageNumber - 1) }
  | .nextClick => { st with pageNumber := min st.numPages (st.pageNumber + 1) }

/-- Whether an event can fire in a state: the prev/next buttons carry
`disabled={pageNumber <= 1 || loading}` and
`disabled={pageNumber >= numPages || loading}` respectively, so their click
handlers only run when enabled; a successfully loaded PDF document has at
least one page. -/
def pdfEnabled (st : PdfState) : PdfEvent → Prop
  | .loadSuccess n => 1 ≤ n
  | .loadError _ => True
  | .prevClick => ¬ (st.pageNumber ≤ 1 ∨ st.loading)
  | .nextClick => ¬ (st.pageNumber ≥ st.numPages ∨ st.loading)

/-- States of `PDFViewer` reachable from the initial state through enabled
events. -/
inductive PdfReachable : PdfState → Prop where
  | init : PdfReachable pdfInitial
  | step {st : PdfState} {e : PdfEvent} :
      PdfReachable st → pdfEnabled st e → PdfReachable (pdfStep st e)

/-! ## src/lib/formatters.ts : formatCellValue -/

mutual

/-- JS `String(x)` conversion, as used for the extracted display values in
`formatCellValue`.  Array conversion joins the elements' conversions with
`,`, rendering `null`/`undefined` elements as the empty string; a `Date`
renders through the runtime and is carried by its display payload. -/
def jsToString : Value → String
  | .vNull => "null"
  | .vUndefined => "undefined"
  | .vBool b => if b then "true" else "false"
  | .vNum n => toString n
  | .vStr s => s
  | .vDate d => d
  | .vObj _ => "[object Object]"
  | .vArr xs => String.intercalate "," (jsArrayElems xs)

def jsArrayElems : List Value → List String
  | [] => []
  | .vNull :: rest => "" :: jsArrayElems rest
  | .vUndefined :: rest => "" :: jsArrayElems rest
  | v :: rest => jsToString v :: jsArrayElems rest

end

mutual

/-- `JSON.stringify`, for the fallback branch of `formatCellValue`.
`undefined` renders as `null` in array position and its key is skipped in
object position; strings are quoted (the values reaching this branch in the
checked properties contain no characters needing escapes). -/
def jsonOfValue : Value → String
  | .vNull => "null"
  | .vUndefined => "null"
  | .vBool b => if b then "true" else "false"
  | .vNum n => toString n
  | .vStr s => "\"" ++ s ++ "\""
  | .vDate d => "\"" ++ d ++ "\""
  | .vArr xs => "[" ++ String.intercalate "," (jsonElems xs) ++ "]"
  | .vObj fields => "\x7b" ++ String.intercalate "," (jsonFields fields) ++ "\x7d"

def jsonElems : List Value → List String
  | [] => []
  | v :: rest => jsonOfValue v :: jsonElems rest

def jsonFields : List (String × Value) → List String
  | [] => []
  | (_, .vUndefined) :: rest => jsonFields rest
  | (k, v) :: rest => ("\"" ++ k ++ "\":" ++ jsonOfValue v) :: jsonFields rest

end

/-- The ordered `'key' in obj` checks of `formatCellValue`: the value of the
first present key among `displayName`, `name`, `title`, `label`, `value`. -/
def displayKeyLookup (fields : List (String × Value)) : Option Value :=
  match lookupField fields "displayName" with
  | some v => some v
  | none =>
    match lookupField fields "name" with
    | some v => some v
    | none =>
      match lookupField fields "title" with
      | some v => some v
      | none =>
        match lookupField fields "label" with
        | some v => some v
        | none => lookupField fields "value"

/-- The JSON fallback of the object branch of `formatCellValue`:
truncated `JSON.stringify` or `'Complex data'`. -/
def jsonFallbackObj (fields : List (String × Value)) : String :=
  let json := jsonOfValue (.vObj fields)
  if json.length > 50 then "Complex data" else json

/-- The regex test `/^\d{4}-\d{2}-\d{2}/.test(value)` of `formatCellValue`. -/
def isDateLikeString (s : String) : Bool :=
  match s.toList with
  | a :: b :: c :: d :: e :: f :: g :: h :: i :: j :: _ =>
      a.isDigit && b.isDigit && c.isDigit && d.isDigit && e == '-' &&
      f.isDigit && g.isDigit && h == '-' && i.isDigit && j.isDigit
  | _ => false

mutual

/-- `formatCellValue` from src/lib/formatters.ts.  `localeDate` is the
runtime's `s => new Date(s).toLocaleDateString()` for the ISO-date-like
string branch (`new Date` does not throw, so the `try` always succeeds);
a `Date` object reaches the `instanceof Date` test (its display keys are
all absent) and renders its locale string. -/
def formatCellValue (localeDate : String → String) : Value → String
  | .vNull => "-"
  | .vUndefined => "-"
  | .vArr xs =>
      if xs.length = 0 then "-"
      else if xs.length ≤ 3 then
        String.intercalate ", " (formatCells localeDate xs)
      else toString xs.length ++ " items"
  | .vObj fields =>
      match displayKeyLookup fields with
      | some v => jsToString v
      | none =>
        match lookupField fields "id" with
        | some v =>
            if fields.length = 1 then jsToString v else jsonFallbackObj fields
        | none => jsonFallbackObj fields
  | .vDate d => d
  | .vBool b => if b then "Yes" else "No"
  | .vStr s => if isDateLikeString s then localeDate s else s
  | .vNum n => toString n

def formatCells (localeDate : String → String) : List Value → List String
  | [] => []
  | v :: rest => formatCellValue localeDate v :: formatCells localeDate rest

end

/-! ## Supporting lemmas -/

theorem lookupField_setField_self (fd : List (String × Value)) (key : String) (v : Value) :
    lookupField (setField fd key v) key = some v := by
  induction fd with
  | nil => simp [setField, lookupField]
  | cons kv rest ih =>
      obtain ⟨k, w⟩ := kv
      by_cases hk : k = key
      · simp [setField, lookupField, hk]
      · simp [setField, lookupField, hk, ih]

theorem lookupField_setField_other (fd : List (String × Value)) (key g : String) (v : Value)
    (hne : g ≠ key) : lookupField (setField fd key v) g = lookupField fd g := by
  have hkg : ¬ key = g := fun h => hne h.symm
  induction fd with
  | nil => simp [setField, lookupField, hkg]
  | cons kv rest ih =>
      obtain ⟨k, w⟩ := kv
      by_cases hk : k = key
      · subst hk
        simp [setField, lookupField, hkg]
      · by_cases hg : k = g
        · simp [setField, lookupField, hk, hg, hne]
        · simp [setField, lookupField, hk, hg, ih]

/-! ## Claim theorems -/

/-- C1.  While `hasActionCenterData` is false, the document-fetch effect of
`ActionPage` issues no `fetchFileContent` call and the entity-records
effect issues no `fetchByName` call, whatever the form data: both effects
return before any dependent service call. -/
theorem actionPage_no_fetch_before_ready (formData : FormData) :
    documentFetchCalls false formData = [] ∧
    entityFetchCalls false formData = [] := by
  constructor <;> rfl

/-- C4.  Before any host message: `hasActionCenterData` is false, `formData`
is the caller-supplied `initialData` (the empty record when not supplied),
`taskData` is null, the derived `isReadOnly` is false, the theme is Light
and the language is `'en'`.  The hook state has no error component, so the
absence of host data raises no error: it is the plain preview default. -/
theorem initial_state_is_preview_default (initialData : FormData) :
    (initialHookState initialData).hasActionCenterData = false ∧
    (initialHookState initialData).formData = initialData ∧
    (initialHookState initialData).taskData = none ∧
    isReadOnlyView (initialHookState initialData) = false ∧
    (initialHookState initialData).theme = themeLight ∧
    (initialHookState initialData).language = "en" := by
  refine ⟨rfl, rfl, rfl, ?_, rfl, rfl⟩
  rfl

/-- C7.  The cleanup of the URL effect of `ActionPage` performs exactly one
`URL.revokeObjectURL` per document slot whose `url` is non-null, on that
url, and no other action: its action list is precisely the non-null urls of
the three slots mapped to revocations. -/
theorem cleanup_revokes_exactly_nonnull_urls (doc1 doc2 doc3 : DocumentInfo) :
    cleanupEffect doc1 doc2 doc3 =
      ([doc1.url, doc2.url, doc3.url].filterMap id).map CleanupAction.revokeObjectURL := by
  obtain ⟨u1, c1, l1, e1⟩ := doc1
  obtain ⟨u2, c2, l2, e2⟩ := doc2
  obtain ⟨u3, c3, l3, e3⟩ := doc3
  cases u1 <;> cases u2 <;> cases u3 <;>
    simp [cleanupEffect, List.filterMap_cons]

/-- C3.  Every failure of `getReadUri` or `fetchFileContent` is handled
locally: the functions are total (nothing is re-thrown to the caller), they
return null, set the hook's error string to the failure message, null the
corresponding result state (`fileInfo` for `getReadUri`, `fileContent` for
`fetchFileContent`), and clear `loading` via the `finally`; each issues its
underlying calls exactly once per invocation, so no retry occurs.  The
three failure shapes of `fetchFileContent` are: SDK rejection, `fetch`
rejection, and a resolved response with `ok` false. -/
theorem bucket_fetch_failures_handled_locally
    (st : BucketState) (e : String) (fetchResult : Except String FetchResponse)
    (uriResponse : BucketFileInfo) (resp : FetchResponse) (hok : resp.ok = false) :
    getReadUri st (.error e) =
      ({ st with error := some e, fileInfo := none, loading := false }, none) ∧
    fetchFileContent st (.error e) fetchResult =
      ({ st with error := some e, fileContent := none, loading := false }, none) ∧
    fetchFileContent st (.ok uriResponse) (.error e) =
      ({ st with
          fileInfo := some uriResponse
          error := some e
          fileContent := none
          loading := false }, none) ∧
    fetchFileContent st (.ok uriResponse) (.ok resp) =
      ({ st with
          fileInfo := some uriResponse
          error := some ("Failed to fetch file: " ++ resp.statusText)
          fileContent := none
          loading := false }, none) := by
  refine ⟨rfl, rfl, rfl, ?_⟩
  simp [fetchFileContent, hok]

/-- Witness for C3: a concrete non-ok HTTP response surfaces as local error
text and a null content result. -/
theorem bucket_fetch_failures_handled_locally_witness :
    fetchFileContent
      { fileInfo := none, fileContent := none, loading := false, error := none }
      (.ok { uri := "u", httpMethod := "GET", requiresAuth := false, headers := [] })
      (.ok { ok := false, statusText := "Not Found", blob := { type := "", content := "" } }) =
    ({ fileInfo := some { uri := "u", httpMethod := "GET", requiresAuth := false, headers := [] }
       fileContent := none
       loading := false
       error := some "Failed to fetch file: Not Found" }, none) :=
  (bucket_fetch_failures_handled_locally
    { fileInfo := none, fileContent := none, loading := false, error := none }
    "boom" (.error "boom")
    { uri := "u", httpMethod := "GET", requiresAuth := false, headers := [] }
    { ok := false, statusText := "Not Found", blob := { type := "", content := "" } }
    rfl).2.2.2

/-- C6.  `updateField f v` rebinds exactly the key `f` in the form-data bag
to `v`; every other key keeps its previous value, and `taskData`, `theme`,
`language` and `hasActionCenterData` are untouched. -/
theorem updateField_frame (st : HookState) (f : String) (v : Value) :
    lookupField (updateField st f v).formData f = some v ∧
    (∀ g, g ≠ f → lookupField (updateField st f v).formData g = lookupField st.formData g) ∧
    (updateField st f v).taskData = st.taskData ∧
    (updateField st f v).theme = st.theme ∧
    (updateField st f v).language = st.language ∧
    (updateField st f v).hasActionCenterData = st.hasActionCenterData := by
  refine ⟨?_, ?_, rfl, rfl, rfl, rfl⟩
  · exact lookupField_setField_self _ _ _
  · intro g hg
    exact lookupField_setField_other _ _ _ _ hg

/-- Witness for C6: updating `b` in a two-field form leaves `a` and the
non-form state untouched. -/
theorem updateField_frame_witness :
    lookupField
      (updateField (initialHookState [("a", .vNum 1), ("b", .vNum 2)]) "b" (.vNum 7)).formData
      "b" = some (.vNum 7) ∧
    lookupField
      (updateField (initialHookState [("a", .vNum 1), ("b", .vNum 2)]) "b" (.vNum 7)).formData
      "a" = lookupField (initialHookState [("a", .vNum 1), ("b", .vNum 2)]).formData "a" ∧
    (updateField (initialHookState [("a", .vNum 1), ("b", .vNum 2)]) "b" (.vNum 7)).hasActionCenterData =
      (initialHookState [("a", .vNum 1), ("b", .vNum 2)]).hasActionCenterData := by
  have h := updateField_frame (initialHookState [("a", .vNum 1), ("b", .vNum 2)]) "b" (.vNum 7)
  exact ⟨h.1, h.2.1 "a" (by decide), h.2.2.2.2.2⟩

/-- `effectEntry` is the identity once the init ref is set. -/
theorem effectEntry_of_initialized (w : HookWorld) (h : w.state.isInitializedRef = true) :
    effectEntry w = w := by
  simp [effectEntry, h]

/-- The first effect entry sets the ref, so iterating from there is stable. -/
theorem effectEntry_iterate_of_initialized (m : Nat) (w : HookWorld)
    (h : w.state.isInitializedRef = true) : effectEntry^[m] w = w := by
  induction m with
  | zero => rfl
  | succ m ih => rw [Function.iterate_succ_apply, effectEntry_of_initialized w h, ih]

/-- However many times the mount effect body is entered, the world is the
one produced by the first entry. -/
theorem effectEntry_iterate_initial (initialData : FormData) (n : Nat) (hn : 1 ≤ n) :
    effectEntry^[n] (initialHookWorld initialData) =
      effectEntry (initialHookWorld initialData) := by
  obtain ⟨m, rfl⟩ := Nat.exists_eq_add_of_le hn
  rw [Nat.add_comm, Function.iterate_add_apply, Function.iterate_one]
  exact effectEntry_iterate_of_initialized m _ rfl

/-- The fields of the hook state after `handleActionCenterMessage`. -/
theorem handleActionCenterMessage_fields (st : HookState) (d : ActionCenterData) :
    (handleActionCenterMessage st d).formData = d.data.getD st.formData ∧
    (handleActionCenterMessage st d).initialDataRef = d.data.getD st.initialDataRef ∧
    (handleActionCenterMessage st d).hasActionCenterData = true ∧
    (handleActionCenterMessage st d).taskData = some d ∧
    (handleActionCenterMessage st d).isInitializedRef = st.isInitializedRef := by
  unfold handleActionCenterMessage
  cases d.data <;> split_ifs <;> simp

/-- C2.  For every number `n ≥ 1` of entries into the mount effect body of
`useActionContext`, the ref guard leaves exactly one callback registration
and exactly one ready signal, with `formData` still the placeholder
`initialData`; and delivering one data-carrying host message to the
registered callback switches `formData` to the host-provided data and sets
the readiness flag. -/
theorem handshake_registers_once (initialData : FormData) (n : Nat) (hn : 1 ≤ n)
    (d : ActionCenterData) (fd : FormData) (hd : d.data = some fd) :
    (effectEntry^[n] (initialHookWorld initialData)).registrations = 1 ∧
    (effectEntry^[n] (initialHookWorld initialData)).readySignals = 1 ∧
    (effectEntry^[n] (initialHookWorld initialData)).state.formData = initialData ∧
    (deliverMessage (effectEntry^[n] (initialHookWorld initialData)) d).state.formData = fd ∧
    (deliverMessage (effectEntry^[n] (initialHookWorld initialData)) d).state.hasActionCenterData
      = true ∧
    (deliverMessage (effectEntry^[n] (initialHookWorld initialData)) d).registrations = 1 ∧
    (deliverMessage (effectEntry^[n] (initialHookWorld initialData)) d).readySignals = 1 := by
  rw [effectEntry_iterate_initial initialData n hn]
  have hmsg := handleActionCenterMessage_fields
    (effectEntry (initialHookWorld initialData)).state d
  refine ⟨rfl, rfl, rfl, ?_, ?_, rfl, rfl⟩
  · show (handleActionCenterMessage _ d).formData = fd
    rw [hmsg.1, hd]
    rfl
  · exact hmsg.2.2.1

/-- Witness for C2: two effect entries and one concrete host message. -/
theorem handshake_registers_once_witness :
    (effectEntry^[2] (initialHookWorld [("x", .vNum 0)])).registrations = 1 ∧
    (deliverMessage (effectEntry^[2] (initialHookWorld [("x", .vNum 0)]))
      { taskId := 5, title := "Review", status := "Pending", isReadOnly := false
        data := some [("x", .vNum 9)], action := "review"
        organizationUnitId := 1, organizationUnitFullyQualifiedName := "Org"
        baseUrl := "https://cloud.example", orgName := "org", tenantName := "tenant"
        token := "tok", language := "en", theme := "light"
        newToken := none, newLanguage := none, newTheme := none }).state.formData
      = [("x", .vNum 9)] := by
  have h := handshake_registers_once [("x", .vNum 0)] 2 (by decide)
    { taskId := 5, title := "Review", status := "Pending", isReadOnly := false
      data := some [("x", .vNum 9)], action := "review"
      organizationUnitId := 1, organizationUnitFullyQualifiedName := "Org"
      baseUrl := "https://cloud.example", orgName := "org", tenantName := "tenant"
      token := "tok", language := "en", theme := "light"
      newToken := none, newLanguage := none, newTheme := none }
    [("x", .vNum 9)] rfl
  exact ⟨h.1, h.2.2.2.1⟩

/-- Events other than data-carrying host messages leave `initialDataRef`
alone; a data-carrying message overwrites it with the payload. -/
theorem stepHook_initialDataRef (st : HookState) (e : HookEvent) :
    (stepHook st e).initialDataRef =
      (lastHostDataStep (some st.initialDataRef) e).getD st.initialDataRef := by
  cases e with
  | hostMessage d =>
      have h := handleActionCenterMessage_fields st d
      cases hd : d.data <;>
        simp [stepHook, lastHostDataStep, hd, h.2.1, Option.getD]
  | fieldUpdate f v => rfl
  | formUpdate data => rfl
  | formReset => rfl

/-- Scanning from a seeded accumulator agrees with scanning from `none`
and falling back to the seed. -/
theorem foldl_lastHostDataStep_some (events : List HookEvent) :
    ∀ (a x : FormData),
      (List.foldl lastHostDataStep (some a) events).getD x =
        (List.foldl lastHostDataStep none events).getD a := by
  induction events with
  | nil => intro a x; rfl
  | cons e rest ih =>
      intro a x
      cases e with
      | hostMessage d =>
          cases hd : d.data with
          | none => simp only [List.foldl_cons, lastHostDataStep, hd]; exact ih a x
          | some fd =>
              simp only [List.foldl_cons, lastHostDataStep, hd]
              rw [ih fd x, ih fd a]
      | fieldUpdate f v => simp only [List.foldl_cons, lastHostDataStep]; exact ih a x
      | formUpdate data => simp only [List.foldl_cons, lastHostDataStep]; exact ih a x
      | formReset => simp only [List.foldl_cons, lastHostDataStep]; exact ih a x

/-- After any event sequence, `initialDataRef` holds the payload of the
most recent data-carrying host message, or its starting value if none. -/
theorem foldl_stepHook_initialDataRef (events : List HookEvent) :
    ∀ st : HookState,
      (List.foldl stepHook st events).initialDataRef =
        (lastHostData events).getD st.initialDataRef := by
  induction events with
  | nil => intro st; rfl
  | cons e rest ih =>
      intro st
      rw [List.foldl_cons, ih (stepHook st e), stepHook_initialDataRef st e]
      show _ = (List.foldl lastHostDataStep (lastHostDataStep none e) rest).getD _
      cases e with
      | hostMessage d =>
          cases hd : d.data with
          | none => simp [lastHostDataStep, hd, lastHostData]
          | some fd =>
              simp only [lastHostDataStep, hd, Option.getD_some]
              exact (foldl_lastHostDataStep_some rest fd st.initialDataRef).symm
      | fieldUpdate f v => simp [lastHostDataStep, lastHostData]
      | formUpdate data => simp [lastHostDataStep, lastHostData]
      | formReset => simp [lastHostDataStep, lastHostData]

/-- C8.  `resetForm` is a round-trip to the last baseline: after any
sequence of hook operations (field and bulk updates, resets, host
messages), a `resetForm` sets `formData` to the `data.data` of the most
recently received data-carrying host message, or to the caller-supplied
`initialData` when no host data was ever received. -/
theorem resetForm_restores_last_baseline (initialData : FormData) (events : List HookEvent) :
    (stepHook (List.foldl stepHook (initialHookState initialData) events) .formReset).formData =
      (lastHostData events).getD initialData := by
  show (List.foldl stepHook (initialHookState initialData) events).initialDataRef = _
  rw [foldl_stepHook_initialDataRef events (initialHookState initialData)]
  rfl

/-- C5.  `getInputType` maps every signed/unsigned integer type and the
floating/decimal types to `'number'`, Boolean to `'checkbox'`, DateOnly to
`'date'`, and every other type string — the remaining declared VB types
and unknown strings alike — to `'text'`; and `ActionFormField` renders the
control corresponding to the declared type: the checkbox for Boolean, the
number input for the numeric types, the date input for DateOnly, and a
free-text control otherwise (the multi-line variant when a `System.String`
field's name marks it as long-form text, the single-line input else). -/
theorem input_widget_by_declared_type :
    (∀ t ∈ [vbInt16, vbInt32, vbInt64, vbUInt16, vbUInt32, vbUInt64,
            vbDouble, vbSingle, vbDecimal], getInputType t = "number") ∧
    getInputType vbBoolean = "checkbox" ∧
    getInputType vbDateOnly = "date" ∧
    (∀ t ∈ [vbString, vbGuid, vbObject, vbDataTable, vbIResource],
      getInputType t = "text") ∧
    (∀ s : String,
      s ∉ [vbInt16, vbInt32, vbInt64, vbUInt16, vbUInt32, vbUInt64,
           vbDouble, vbSingle, vbDecimal, vbBoolean, vbDateOnly] →
      getInputType s = "text") ∧
    (∀ (ty name : String),
      (ty = vbBoolean → renderedControl ty name = .checkbox) ∧
      (getInputType ty = "number" → renderedControl ty name = .numberInput) ∧
      (ty = vbDateOnly → renderedControl ty name = .dateInput) ∧
      (getInputType ty = "text" → (renderedControl ty name).isTextEntry = true)) := by
  have htext : ∀ s : String,
      s ∉ [vbInt16, vbInt32, vbInt64, vbUInt16, vbUInt32, vbUInt64,
           vbDouble, vbSingle, vbDecimal, vbBoolean, vbDateOnly] →
      getInputType s = "text" := by
    intro s hs
    simp only [List.mem_cons, List.not_mem_nil, or_false, not_or] at hs
    obtain ⟨h1, h2, h3, h4, h5, h6, h7, h8, h9, h10, h11⟩ := hs
    simp [getInputType, h1, h2, h3, h4, h5, h6, h7, h8, h9, h10, h11]
  refine ⟨?_, rfl, rfl, ?_, htext, ?_⟩
  · intro t ht
    simp only [List.mem_cons, List.not_mem_nil, or_false] at ht
    rcases ht with rfl | rfl | rfl | rfl | rfl | rfl | rfl | rfl | rfl <;> rfl
  · intro t ht
    simp only [List.mem_cons, List.not_mem_nil, or_false] at ht
    rcases ht with rfl | rfl | rfl | rfl | rfl <;> rfl
  · intro ty name
    refine ⟨?_, ?_, ?_, ?_⟩
    · rintro rfl
      rfl
    · intro hnum
      have hb : ¬ ty = vbBoolean := by
        rintro rfl
        exact absurd hnum (by decide)
      have hs : ¬ (ty = vbString ∧ isLongTextName name = true) := by
        rintro ⟨rfl, _⟩
        exact absurd hnum (by decide)
      simp [renderedControl, hb, hs, hnum]
    · rintro rfl
      rfl
    · intro htxt
      have hb : ¬ ty = vbBoolean := by
        rintro rfl
        exact absurd htxt (by decide)
      have hnum : ¬ getInputType ty = "number" := by
        intro h
        rw [h] at htxt
        exact absurd htxt (by decide)
      have hdo : ¬ ty = vbDateOnly := by
        rintro rfl
        exact absurd htxt (by decide)
      by_cases hlt : ty = vbString ∧ isLongTextName name = true
      · obtain ⟨rfl, hname⟩ := hlt
        simp [renderedControl, hname, Control.isTextEntry,
          show ¬ vbString = vbBoolean by decide]
      · simp [renderedControl, hb, hlt, hnum, hdo, Control.isTextEntry]

/-- Witness for C5: concrete type strings hit each widget class. -/
theorem input_widget_by_declared_type_witness :
    getInputType vbInt32 = "number" ∧
    getInputType "MyNamespace.CustomThing" = "text" ∧
    renderedControl vbBoolean "isApproved" = .checkbox ∧
    renderedControl vbInt64 "loanAmount" = .numberInput ∧
    renderedControl vbDateOnly "dueDate" = .dateInput ∧
    (renderedControl vbString "remarks").isTextEntry = true := by
  have h := input_widget_by_declared_type
  refine ⟨h.1 vbInt32 (by simp), h.2.2.2.2.1 "MyNamespace.CustomThing" (by decide), ?_, ?_, ?_, ?_⟩
  · exact (h.2.2.2.2.2 vbBoolean "isApproved").1 rfl
  · exact (h.2.2.2.2.2 vbInt64 "loanAmount").2.1 rfl
  · exact (h.2.2.2.2.2 vbDateOnly "dueDate").2.2.1 rfl
  · exact (h.2.2.2.2.2 vbString "remarks").2.2.2 rfl

/-- The mutual list helper of `formatCellValue` is element-wise mapping. -/
theorem formatCells_eq_map (localeDate : String → String) (xs : List Value) :
    formatCells localeDate xs = xs.map (formatCellValue localeDate) := by
  induction xs with
  | nil => rfl
  | cons v rest ih => simp [formatCells, ih]

/-- C9.  `formatCellValue` is a total function on the embedded values, and:
null, undefined and the empty array format as `'-'`; an array of at most 3
elements formats as the element-wise formats joined by `', '`; an array of
`N > 3` elements formats as `'N items'`; booleans format as `'Yes'`/`'No'`;
and a non-array object with at least one of the keys `displayName`, `name`,
`title`, `label`, `value` formats as the JS stringification of the first
present one, checked in that order (`displayKeyLookup`). -/
theorem formatCellValue_cases (localeDate : String → String) :
    formatCellValue localeDate .vNull = "-" ∧
    formatCellValue localeDate .vUndefined = "-" ∧
    formatCellValue localeDate (.vArr []) = "-" ∧
    (∀ xs : List Value, xs ≠ [] → xs.length ≤ 3 →
      formatCellValue localeDate (.vArr xs) =
        String.intercalate ", " (xs.map (formatCellValue localeDate))) ∧
    (∀ xs : List Value, 3 < xs.length →
      formatCellValue localeDate (.vArr xs) = toString xs.length ++ " items") ∧
    formatCellValue localeDate (.vBool true) = "Yes" ∧
    formatCellValue localeDate (.vBool false) = "No" ∧
    (∀ (fields : List (String × Value)) (v : Value),
      displayKeyLookup fields = some v →
      formatCellValue localeDate (.vObj fields) = jsToString v) := by
  refine ⟨rfl, rfl, rfl, ?_, ?_, rfl, rfl, ?_⟩
  · intro xs hne hlen
    have h0 : xs.length ≠ 0 := by
      simpa [List.length_eq_zero] using hne
    simp [formatCellValue, h0, hlen, formatCells_eq_map]
  · intro xs hlen
    have h0 : xs.length ≠ 0 := by omega
    have h3 : ¬ xs.length ≤ 3 := by omega
    simp [formatCellValue, h0, h3]
  · intro fields v hv
    simp [formatCellValue, hv]

/-- Witness for C9: concrete arrays and a display-keyed object. -/
theorem formatCellValue_cases_witness :
    formatCellValue id (.vArr [.vBool true, .vNull]) = "Yes, -" ∧
    formatCellValue id (.vArr [.vNum 1, .vNum 2, .vNum 3, .vNum 4]) = "4 items" ∧
    formatCellValue id (.vObj [("id", .vNum 7), ("name", .vStr "Ada")]) = "Ada" := by
  have h := formatCellValue_cases id
  refine ⟨?_, ?_, ?_⟩
  · have := h.2.2.2.1 [.vBool true, .vNull] (by simp) (by simp)
    rw [this]
    rfl
  · exact h.2.2.2.2.1 [.vNum 1, .vNum 2, .vNum 3, .vNum 4] (by decide)
  · exact h.2.2.2.2.2.2.2 [("id", .vNum 7), ("name", .vStr "Ada")] (.vStr "Ada") rfl

/-- C10.  In every reachable state of the `PDFViewer` navigation —
through loads, load failures, and the prev/next buttons (which only fire
while enabled) — `pageNumber ≥ 1`, and `pageNumber ≤ numPages` whenever a
document has loaded (`numPages ≥ 1`): the initial state starts at page 1,
`onLoadSuccess` resets to page 1, `goToPrevPage` clamps at 1 and
`goToNextPage` clamps at `numPages`. -/
theorem pdf_page_number_invariant (st : PdfState) (h : PdfReachable st) :
    1 ≤ st.pageNumber ∧ (1 ≤ st.numPages → st.pageNumber ≤ st.numPages) := by
  induction h with
  | init => exact ⟨le_refl 1, fun h => absurd h (by decide)⟩
  | step hr he ih =>
      rename_i st' e
      obtain ⟨ih1, ih2⟩ := ih
      cases e with
      | loadSuccess n =>
          simp only [pdfEnabled] at he
          exact ⟨le_refl 1, fun _ => he⟩
      | loadError m => exact ⟨ih1, ih2⟩
      | prevClick =>
          simp only [pdfStep, max_def]
          constructor
          · split <;> omega
          · intro hnp
            have := ih2 hnp
            split <;> omega
      | nextClick =>
          simp only [pdfEnabled, not_or, not_le, not_lt] at he
          simp only [pdfStep, min_def]
          constructor
          · split <;> omega
          · intro hnp
            split <;> omega

/-- Witness for C10: the state reached by loading a 5-page document and
paging forward once satisfies the invariant. -/
theorem pdf_page_number_invariant_witness :
    1 ≤ (pdfStep (pdfStep pdfInitial (.loadSuccess 5)) .nextClick).pageNumber ∧
    (1 ≤ (pdfStep (pdfStep pdfInitial (.loadSuccess 5)) .nextClick).numPages →
      (pdfStep (pdfStep pdfInitial (.loadSuccess 5)) .nextClick).pageNumber ≤
        (pdfStep (pdfStep pdfInitial (.loadSuccess 5)) .nextClick).numPages) :=
  pdf_page_number_invariant _
    (PdfReachable.step
      (PdfReachable.step PdfReachable.init (by simp [pdfEnabled, pdfInitial]))
      (by simp [pdfEnabled, pdfStep, pdfInitial]))

end DocReview
